import Mathlib

/-!
Verification of the blog/feed subsystem of an online-judge web application
(`judge/views/blog.py`).  The Django querysets are shallowly embedded as
functions over lists: each model table becomes a `List` of records, each
queryset pipeline becomes a composition of `List.filter` and a sort, and the
request is a record holding the viewer's identity, staff flag and the active
organization context.
-/

namespace Blog

/-- An organization, identified by `id`, with the profile ids of its admins
(`Organization.admins` in the schema). -/
structure Organization where
  id : Nat
  admins : List Nat
deriving DecidableEq, Repr

/-- A user profile: its id and the organizations it belongs to
(`Profile.organizations`). -/
structure Profile where
  id : Nat
  organizations : List Organization
deriving DecidableEq, Repr

/-- The per-request data used by the views: `request.user.is_authenticated`,
`request.user.is_staff`, `request.profile`, and the active organization
context `request.organization` (set by middleware, `None` outside an
organization page). -/
structure Request where
  user_is_authenticated : Bool
  user_is_staff : Bool
  profile : Profile
  organization : Option Organization
deriving DecidableEq, Repr

/-- A blog post (`BlogPost` model): the fields read by `blog.py`. -/
structure BlogPost where
  id : Nat
  visible : Bool
  publish_on : Int
  sticky : Bool
  is_organization_private : Bool
  authors : List Nat
  organizations : List Organization
deriving DecidableEq, Repr

/-- A ticket (`Ticket` model): owner profile id (`user`), assignee profile
ids, and the open flag. -/
structure Ticket where
  id : Nat
  user : Nat
  assignees : List Nat
  is_open : Bool
deriving DecidableEq, Repr

/-- A contest (`Contest` model): the fields read by `FeedView`. -/
structure Contest where
  id : Nat
  start_time : Int
  end_time : Int
  is_visible : Bool
  is_organization_private : Bool
  organizations : List Organization
deriving DecidableEq, Repr

/-- A comment (`Comment` model): its page key string (such as `b:<post id>`)
and hidden flag. -/
structure Comment where
  page : String
  hidden : Bool
deriving DecidableEq, Repr

/-! ### Orderings used by `order_by` clauses -/

/-- Boolean comparator for `order_by("-sticky", "-publish_on")`: `a` may come
no later than `b` iff `a` is sticky and `b` is not, or they are equally sticky
and `a` was published no earlier. -/
def postLe (a b : BlogPost) : Bool :=
  (a.sticky && !b.sticky) || ((a.sticky == b.sticky) && decide (b.publish_on ≤ a.publish_on))

/-- The ordering relation of the blog-post list. -/
def postOrd (a b : BlogPost) : Prop := postLe a b = true

instance : DecidableRel postOrd := fun a b => by unfold postOrd; infer_instance

instance : IsTotal BlogPost postOrd := by
  constructor
  intro a b
  simp only [postOrd, postLe, Bool.or_eq_true, Bool.and_eq_true, Bool.not_eq_true',
    beq_iff_eq, decide_eq_true_eq]
  cases ha : a.sticky <;> cases hb : b.sticky <;> simp <;> omega

instance : IsTrans BlogPost postOrd := by
  constructor
  intro a b c
  simp only [postOrd, postLe, Bool.or_eq_true, Bool.and_eq_true, Bool.not_eq_true',
    beq_iff_eq, decide_eq_true_eq]
  cases ha : a.sticky <;> cases hb : b.sticky <;> cases hc : c.sticky <;> simp <;> omega

/-- Boolean comparator for `order_by("-id")` on tickets: descending id. -/
def ticketLe (a b : Ticket) : Bool := decide (b.id ≤ a.id)

/-- The ordering relation of the ticket feeds. -/
def ticketOrd (a b : Ticket) : Prop := ticketLe a b = true

instance : DecidableRel ticketOrd := fun a b => by unfold ticketOrd; infer_instance

instance : IsTotal Ticket ticketOrd := by
  constructor
  intro a b
  simp only [ticketOrd, ticketLe, decide_eq_true_eq]
  omega

instance : IsTrans Ticket ticketOrd := by
  constructor
  intro a b c
  simp only [ticketOrd, ticketLe, decide_eq_true_eq]
  omega

/-- Boolean comparator for `order_by("start_time")` on contests: ascending
start time. -/
def contestLe (a b : Contest) : Bool := decide (a.start_time ≤ b.start_time)

/-- The ordering relation of the sidebar contest lists. -/
def contestOrd (a b : Contest) : Prop := contestLe a b = true

instance : DecidableRel contestOrd := fun a b => by unfold contestOrd; infer_instance

instance : IsTotal Contest contestOrd := by
  constructor
  intro a b
  simp only [contestOrd, contestLe, decide_eq_true_eq]
  omega

instance : IsTrans Contest contestOrd := by
  constructor
  intro a b c
  simp only [contestOrd, contestLe, decide_eq_true_eq]
  omega

/-! ### PostList.get_queryset -/

/-- The organization-privacy filter `PostList.get_queryset` builds as a `Q`
object: start from `is_organization_private=False`; if the viewer is
authenticated, allow posts sharing an organization with the viewer; if an
active organization context is present, additionally require the post to be
attached to that organization. -/
def postListOrgFilter (req : Request) (p : BlogPost) : Bool :=
  (!p.is_organization_private ||
     (req.user_is_authenticated &&
       p.organizations.any (fun o => req.profile.organizations.contains o))) &&
  (match req.organization with
   | none => true
   | some org => p.organizations.contains org)

/-- `PostList.get_queryset`: keep visible posts published at or before `now`,
order by `-sticky, -publish_on`, then apply the organization-privacy filter. -/
def PostList.get_queryset (req : Request) (now : Int) (posts : List BlogPost) : List BlogPost :=
  ((posts.filter (fun p => p.visible && decide (p.publish_on ≤ now))).insertionSort postOrd).filter
    (postListOrgFilter req)

/-! ### TicketFeed.get_queryset -/

/-- Modelled from the spec: `judge.utils.tickets.filter_visible_tickets` is
not part of the sources under verification; the spec describes it as an
external fine-grained visibility filter of contract
`filter_visible_tickets(queryset, user, profile) -> queryset`.  It is
modelled as filtering the queryset by an arbitrary per-ticket visibility
predicate `vis` (standing for the user/profile-dependent check). -/
def filter_visible_tickets (vis : Ticket → Bool) (tickets : List Ticket) : List Ticket :=
  tickets.filter vis

/-- `TicketFeed.get_queryset(is_own)`: the "own" feed returns the open
tickets owned by or assigned to the viewer (empty when unauthenticated); the
"all" feed returns the open tickets passed through `filter_visible_tickets`
(empty for non-staff).  Both are ordered by descending id. -/
def TicketFeed.get_queryset (vis : Ticket → Bool) (req : Request) (tickets : List Ticket)
    (is_own : Bool) : List Ticket :=
  if is_own then
    if req.user_is_authenticated then
      (tickets.filter
          (fun t => (t.user == req.profile.id || t.assignees.contains req.profile.id) && t.is_open)).insertionSort
        ticketOrd
    else []
  else
    if req.user_is_staff then
      filter_visible_tickets vis ((tickets.insertionSort ticketOrd).filter (fun t => t.is_open))
    else []

/-! ### PostView -/

/-- The error-response outcomes a detail view can raise. -/
inductive HttpError where
  | http404
  | permissionDenied
deriving DecidableEq, Repr

/-- `PostView.get_object`: fetch the post and raise `Http404` when the viewer
cannot see it (`can_see` is the external `BlogPost.can_see(user)` predicate,
taken as a parameter). -/
def PostView.get_object (can_see : Request → BlogPost → Bool) (req : Request)
    (post : BlogPost) : Except HttpError BlogPost :=
  if can_see req post then Except.ok post else Except.error HttpError.http404

/-- The `valid_user_to_show_edit` flag of `PostView.get_context_data`: set
when the viewer's profile is among the post's authors, or is an admin of some
organization attached to the post. -/
def PostView.valid_user_to_show_edit (req : Request) (post : BlogPost) : Bool :=
  post.authors.contains req.profile.id ||
    post.organizations.any (fun o => o.admins.contains req.profile.id)

/-- The `valid_org_to_show_edit` list of `PostView.get_context_data`: when
the edit flag is set, the post's organizations the viewer belongs to, in the
order they are attached to the post; otherwise the empty list. -/
def PostView.valid_org_to_show_edit (req : Request) (post : BlogPost) : List Organization :=
  if PostView.valid_user_to_show_edit req post then
    post.organizations.filter (fun o => req.profile.organizations.contains o)
  else []

/-! ### FeedView sidebar contests -/

/-- The initial `visible_contests` queryset of `FeedView.get_context_data`:
the external `Contest.get_visible_contests` (parameter `gvc`) restricted to
`is_visible=True` and ordered by ascending start time. -/
def FeedView.visible_base (gvc : Contest → Bool) (contests : List Contest) : List Contest :=
  ((contests.filter gvc).filter (fun c => c.is_visible)).insertionSort contestOrd

/-- The `visible_contests` queryset after the conditional reassignment: when
an active organization context is present, restricted to organization-private
contests of that organization. -/
def FeedView.visible_contests (gvc : Contest → Bool) (req : Request)
    (contests : List Contest) : List Contest :=
  match req.organization with
  | none => FeedView.visible_base gvc contests
  | some org =>
    (FeedView.visible_base gvc contests).filter
      (fun c => c.is_organization_private && c.organizations.contains org)

/-- `context["current_contests"]`: visible contests with
`start_time <= now < end_time`. -/
def FeedView.current_contests (gvc : Contest → Bool) (req : Request)
    (contests : List Contest) (now : Int) : List Contest :=
  (FeedView.visible_contests gvc req contests).filter
    (fun c => decide (c.start_time ≤ now) && decide (now < c.end_time))

/-- `context["future_contests"]`: visible contests with `start_time > now`. -/
def FeedView.future_contests (gvc : Contest → Bool) (req : Request)
    (contests : List Contest) (now : Int) : List Contest :=
  (FeedView.visible_contests gvc req contests).filter (fun c => decide (now < c.start_time))

/-! ### Comment-count aggregation of PostList.get_context_data

The Python builds the dict
`{int(page[2:]): count for page, count in Comment.objects.filter(page__in=..., hidden=False).values_list("page").annotate(count=Count("page"))}`.
The string formatting `"b:%d" % id` and parsing `int(page[2:])` are modelled
by explicit decimal digit functions. -/

/-- The character for a decimal digit, as Python's `%d` produces. -/
def digitChar (d : Nat) : Char := Char.ofNat (48 + d)

/-- The decimal digit string of a natural number, most significant first
(the model of Python's `"%d"` formatting). -/
def natToDigits (n : Nat) : List Char :=
  if _h : n < 10 then [digitChar n]
  else natToDigits (n / 10) ++ [digitChar (n % 10)]
decreasing_by
  exact Nat.div_lt_self (by omega) (by omega)

/-- The page key `"b:%d" % id` of a blog post. -/
def pyFormatB (n : Nat) : String := String.mk ('b' :: ':' :: natToDigits n)

/-- Python's `s[n:]` slice on a string. -/
def pyStrDrop (s : String) (n : Nat) : String := String.mk (s.data.drop n)

/-- Accumulator form of decimal parsing. -/
def decimalAux (acc : Nat) : List Char → Nat
  | [] => acc
  | c :: cs => decimalAux (acc * 10 + (c.toNat - 48)) cs

/-- Python's `int(s)` on a decimal digit string. -/
def pyInt (s : String) : Nat := decimalAux 0 s.data

/-- The comment rows matched by `filter(page__in=pages, hidden=False)`. -/
def relevant (pages : List String) (comments : List Comment) : List Comment :=
  comments.filter (fun c => pages.contains c.page && !c.hidden)

/-- The grouped aggregate
`filter(page__in=pages, hidden=False).values_list("page").annotate(count=Count("page"))`:
one row per distinct page key occurring among the non-hidden comments whose
page is in `pages`, with the number of such comments. -/
def group_counts (pages : List String) (comments : List Comment) : List (String × Nat) :=
  ((relevant pages comments).map (fun c => c.page)).dedup.map
    (fun p => (p, (relevant pages comments).countP (fun c => c.page == p)))

/-- `context["post_comment_counts"]` of `PostList.get_context_data`: the
grouped comment counts for the listed posts' page keys, re-keyed by
`int(page[2:])`. -/
def PostList.post_comment_counts (posts : List BlogPost) (comments : List Comment) :
    List (Nat × Nat) :=
  (group_counts (posts.map (fun p => pyFormatB p.id)) comments).map
    (fun e => (pyInt (pyStrDrop e.1 2), e.2))

/-- Lookup in the comment-count dict; `none` when the key is absent. -/
def dictLookup (d : List (Nat × Nat)) (k : Nat) : Option Nat :=
  (d.find? (fun e => e.1 == k)).map (fun e => e.2)

/-! ### Concrete fixtures used by counterexamples and witnesses -/

/-- A sample organization. -/
def orgA : Organization := ⟨5, []⟩

/-- A sample organization the sample viewer belongs to. -/
def orgB : Organization := ⟨6, []⟩

/-- A profile belonging to no organization. -/
def profileA : Profile := ⟨7, []⟩

/-- A profile belonging to `orgB`. -/
def profileB : Profile := ⟨7, [orgB]⟩

/-- An unauthenticated request with no organization context. -/
def reqAnon : Request := ⟨false, false, profileA, none⟩

/-- An unauthenticated request inside the organization context `orgA`. -/
def reqAnonOrg : Request := ⟨false, false, profileA, some orgA⟩

/-- An authenticated non-staff request. -/
def reqAuth : Request := ⟨true, false, profileA, none⟩

/-- An authenticated request by `profileB`. -/
def reqAuthB : Request := ⟨true, false, profileB, none⟩

/-- An authenticated staff request. -/
def reqStaff : Request := ⟨true, true, profileA, none⟩

/-- A public, visible, already-published, non-sticky post. -/
def postA : BlogPost := ⟨1, true, 0, false, false, [], []⟩

/-- A post authored by profile 7 and attached to `orgB`. -/
def postB : BlogPost := ⟨2, true, 0, false, false, [7], [orgB]⟩

/-- A closed ticket owned by profile 7. -/
def ticketClosed : Ticket := ⟨1, 7, [], false⟩

/-- An open ticket owned by profile 7. -/
def ticketOpen : Ticket := ⟨2, 7, [], true⟩

/-- An open ticket owned by profile 9. -/
def ticketOther : Ticket := ⟨3, 9, [], true⟩

/-- A sample contest running at time 0. -/
def contestA : Contest := ⟨1, -1, 10, true, false, []⟩

/-- A sample comment on `postA`. -/
def commentA : Comment := ⟨pyFormatB 1, false⟩

/-! ### Helper lemmas -/

/-- The post ordering implies the sticky-first, newest-first pairwise
property. -/
theorem postOrd_imp_pair (a b : BlogPost) (h : postOrd a b) :
    (b.sticky = true → a.sticky = true) ∧
      (a.sticky = b.sticky → b.publish_on ≤ a.publish_on) := by
  simp only [postOrd, postLe, Bool.or_eq_true, Bool.and_eq_true, Bool.not_eq_true',
    beq_iff_eq, decide_eq_true_eq] at h
  cases ha : a.sticky <;> cases hb : b.sticky <;> simp_all

/-- Membership in `PostList.get_queryset`, spelled out. -/
theorem postList_mem (req : Request) (now : Int) (posts : List BlogPost) (p : BlogPost) :
    p ∈ PostList.get_queryset req now posts ↔
      p ∈ posts ∧ p.visible = true ∧ p.publish_on ≤ now ∧
        postListOrgFilter req p = true := by
  unfold PostList.get_queryset
  rw [List.mem_filter, List.mem_insertionSort, List.mem_filter]
  simp [and_assoc, and_comm, and_left_comm]

/-- The organization-privacy filter, spelled out as a proposition. -/
theorem postListOrgFilter_iff (req : Request) (p : BlogPost) :
    postListOrgFilter req p = true ↔
      (p.is_organization_private = false ∨
        (req.user_is_authenticated = true ∧
          ∃ o ∈ p.organizations, o ∈ req.profile.organizations)) ∧
      (∀ org, req.organization = some org → org ∈ p.organizations) := by
  unfold postListOrgFilter
  cases horg : req.organization with
  | none =>
    simp [List.contains, List.any_eq_true, Bool.or_eq_true, Bool.and_eq_true]
  | some org =>
    simp [List.contains, List.any_eq_true, Bool.or_eq_true, Bool.and_eq_true]

/-- Claim C1 (amended): a post appears in the `PostList` queryset iff it is
visible, published at or before now, satisfies the org-privacy predicate,
and, when an active organization context is present, is attached to that
organization. -/
theorem postList_membership_characterisation (req : Request) (now : Int)
    (posts : List BlogPost) (p : BlogPost) :
    p ∈ PostList.get_queryset req now posts ↔
      p ∈ posts ∧ p.visible = true ∧ p.publish_on ≤ now ∧
        (p.is_organization_private = false ∨
          (req.user_is_authenticated = true ∧
            ∃ o ∈ p.organizations, o ∈ req.profile.organizations)) ∧
        (∀ org, req.organization = some org → org ∈ p.organizations) := by
  rw [postList_mem, postListOrgFilter_iff]

/-- Claim C1 fails as frozen: inside an active organization context, a
public, visible, published post not attached to that organization satisfies
the claimed right-hand side yet is absent from the queryset. -/
theorem postList_membership_cex :
    ¬ ((postA ∈ PostList.get_queryset reqAnonOrg 0 [postA]) ↔
        (postA ∈ [postA] ∧ postA.visible = true ∧ postA.publish_on ≤ (0 : Int) ∧
          (postA.is_organization_private = false ∨
            (reqAnonOrg.user_is_authenticated = true ∧
              ∃ o ∈ postA.organizations, o ∈ reqAnonOrg.profile.organizations)))) := by
  decide

/-- Claim C7: the `PostList` queryset puts sticky posts before non-sticky
ones and, within equal stickiness, newer posts first. -/
theorem postList_sorted (req : Request) (now : Int) (posts : List BlogPost) :
    List.Pairwise
      (fun a b => (b.sticky = true → a.sticky = true) ∧
        (a.sticky = b.sticky → b.publish_on ≤ a.publish_on))
      (PostList.get_queryset req now posts) := by
  unfold PostList.get_queryset
  exact ((List.sorted_insertionSort postOrd _).filter _).imp
    (fun h => postOrd_imp_pair _ _ h)

/-- Claim C2: fetching a post the viewer cannot see raises a not-found
error, never a permission-denied error; a post the viewer can see is
returned unchanged. -/
theorem postView_get_object_spec (can_see : Request → BlogPost → Bool)
    (req : Request) (post : BlogPost) :
    (can_see req post = false →
      PostView.get_object can_see req post = Except.error HttpError.http404) ∧
    (PostView.get_object can_see req post ≠ Except.error HttpError.permissionDenied) ∧
    (can_see req post = true →
      PostView.get_object can_see req post = Except.ok post) := by
  unfold PostView.get_object
  cases h : can_see req post <;> simp

/-- Witness for claim C2 at concrete inputs. -/
theorem postView_get_object_spec_witness :
    PostView.get_object (fun _ _ => false) reqAnon postA = Except.error HttpError.http404 ∧
    PostView.get_object (fun _ _ => true) reqAnon postA = Except.ok postA :=
  ⟨(postView_get_object_spec (fun _ _ => false) reqAnon postA).1 rfl,
   (postView_get_object_spec (fun _ _ => true) reqAnon postA).2.2 rfl⟩

/-- Witness for claim C1 (amended) at a concrete input. -/
theorem postList_membership_characterisation_witness :
    postA ∈ PostList.get_queryset reqAnon 0 [postA] :=
  (postList_membership_characterisation reqAnon 0 [postA] postA).mpr (by decide)

/-- Witness for claim C7 at a concrete input. -/
theorem postList_sorted_witness :
    List.Pairwise
      (fun a b => (b.sticky = true → a.sticky = true) ∧
        (a.sticky = b.sticky → b.publish_on ≤ a.publish_on))
      (PostList.get_queryset reqAnon 0 [postA]) :=
  postList_sorted reqAnon 0 [postA]

/-- Claim C3 fails as frozen: for an authenticated viewer the "own" feed is
claimed to contain exactly the tickets owned by or assigned to the viewer,
but a closed ticket owned by the viewer is absent. -/
theorem ticketFeed_own_cex :
    ¬ ((ticketClosed ∈ TicketFeed.get_queryset (fun _ => true) reqAuth [ticketClosed] true) ↔
        (ticketClosed ∈ [ticketClosed] ∧
          (ticketClosed.user = reqAuth.profile.id ∨
            reqAuth.profile.id ∈ ticketClosed.assignees))) := by
  decide

/-- The "own" ticket feed of an unauthenticated viewer is empty. -/
theorem ticket_own_unauth (vis : Ticket → Bool) (req : Request) (tickets : List Ticket)
    (h : req.user_is_authenticated = false) :
    TicketFeed.get_queryset vis req tickets true = [] := by
  simp [TicketFeed.get_queryset, h]

/-- Membership in the "own" ticket feed of an authenticated viewer. -/
theorem ticket_own_mem (vis : Ticket → Bool) (req : Request) (tickets : List Ticket)
    (h : req.user_is_authenticated = true) (t : Ticket) :
    t ∈ TicketFeed.get_queryset vis req tickets true ↔
      t ∈ tickets ∧ (t.user = req.profile.id ∨ req.profile.id ∈ t.assignees) ∧
        t.is_open = true := by
  simp [TicketFeed.get_queryset, h, List.mem_filter, List.contains, and_assoc]

/-- Claim C3 (amended): the "own" ticket feed is empty for an
unauthenticated viewer (not an error); for an authenticated viewer it holds
exactly the open tickets owned by or assigned to the viewer. -/
theorem ticketFeed_own_spec (vis : Ticket → Bool) (req : Request) (tickets : List Ticket) :
    (req.user_is_authenticated = false →
      TicketFeed.get_queryset vis req tickets true = []) ∧
    (req.user_is_authenticated = true →
      ∀ t, t ∈ TicketFeed.get_queryset vis req tickets true ↔
        t ∈ tickets ∧ (t.user = req.profile.id ∨ req.profile.id ∈ t.assignees) ∧
          t.is_open = true) :=
  ⟨ticket_own_unauth vis req tickets, ticket_own_mem vis req tickets⟩

/-- Witness for claim C3 (amended) at concrete inputs. -/
theorem ticketFeed_own_spec_witness :
    TicketFeed.get_queryset (fun _ => true) reqAnon [ticketOpen] true = [] ∧
    ticketOpen ∈ TicketFeed.get_queryset (fun _ => true) reqAuth [ticketOpen] true :=
  ⟨(ticketFeed_own_spec (fun _ => true) reqAnon [ticketOpen]).1 rfl,
   ((ticketFeed_own_spec (fun _ => true) reqAuth [ticketOpen]).2 rfl ticketOpen).mpr
     (by decide)⟩

/-- The "all" ticket feed of a non-staff viewer is empty. -/
theorem ticket_all_nonstaff (vis : Ticket → Bool) (req : Request) (tickets : List Ticket)
    (h : req.user_is_staff = false) :
    TicketFeed.get_queryset vis req tickets false = [] := by
  simp [TicketFeed.get_queryset, h]

/-- The "all" ticket feed of a staff viewer delegates the open tickets to
the external filter. -/
theorem ticket_all_staff (vis : Ticket → Bool) (req : Request) (tickets : List Ticket)
    (h : req.user_is_staff = true) :
    TicketFeed.get_queryset vis req tickets false =
      filter_visible_tickets vis
        ((tickets.insertionSort ticketOrd).filter (fun t => t.is_open)) := by
  simp [TicketFeed.get_queryset, h]

/-- Claim C4: the "all" ticket feed is empty for a non-staff viewer (not an
error); for a staff viewer it is the open tickets passed through the external
fine-grained filter `filter_visible_tickets`. -/
theorem ticketFeed_all_spec (vis : Ticket → Bool) (req : Request) (tickets : List Ticket) :
    (req.user_is_staff = false →
      TicketFeed.get_queryset vis req tickets false = []) ∧
    (req.user_is_staff = true →
      TicketFeed.get_queryset vis req tickets false =
        filter_visible_tickets vis
          ((tickets.insertionSort ticketOrd).filter (fun t => t.is_open))) :=
  ⟨ticket_all_nonstaff vis req tickets, ticket_all_staff vis req tickets⟩

/-- Witness for claim C4 at concrete inputs. -/
theorem ticketFeed_all_spec_witness :
    TicketFeed.get_queryset (fun _ => true) reqAuth [ticketOpen] false = [] ∧
    TicketFeed.get_queryset (fun _ => true) reqStaff [ticketOpen] false =
      filter_visible_tickets (fun _ => true)
        (([ticketOpen].insertionSort ticketOrd).filter (fun t => t.is_open)) :=
  ⟨(ticketFeed_all_spec (fun _ => true) reqAuth [ticketOpen]).1 rfl,
   (ticketFeed_all_spec (fun _ => true) reqStaff [ticketOpen]).2 rfl⟩

/-- Claim C5: the edit flag is set iff the viewer is a direct author or an
admin of an organization attached to the post; the editable-organizations
list is exactly the post's organizations the viewer belongs to when the flag
is set, is empty otherwise, and is always a subset of both the post's and
the viewer's organizations. -/
theorem postView_edit_spec (req : Request) (post : BlogPost) :
    (PostView.valid_user_to_show_edit req post = true ↔
      req.profile.id ∈ post.authors ∨
        ∃ o ∈ post.organizations, req.profile.id ∈ o.admins) ∧
    (PostView.valid_user_to_show_edit req post = true →
      ∀ o, o ∈ PostView.valid_org_to_show_edit req post ↔
        o ∈ post.organizations ∧ o ∈ req.profile.organizations) ∧
    (PostView.valid_user_to_show_edit req post = false →
      PostView.valid_org_to_show_edit req post = []) ∧
    (∀ o ∈ PostView.valid_org_to_show_edit req post,
      o ∈ post.organizations ∧ o ∈ req.profile.organizations) := by
  refine ⟨?_, ?_, ?_, ?_⟩
  · simp [PostView.valid_user_to_show_edit, List.contains, List.any_eq_true]
  · intro h o
    simp [PostView.valid_org_to_show_edit, h, List.mem_filter, List.contains]
  · intro h
    simp [PostView.valid_org_to_show_edit, h]
  · intro o ho
    unfold PostView.valid_org_to_show_edit at ho
    by_cases h : PostView.valid_user_to_show_edit req post = true
    · rw [if_pos h] at ho
      rw [List.mem_filter] at ho
      refine ⟨ho.1, ?_⟩
      have := ho.2
      simpa [List.contains] using this
    · rw [if_neg h] at ho
      cases ho

/-- Witness for claim C5 at a concrete input: an author inside `orgB`. -/
theorem postView_edit_spec_witness :
    PostView.valid_user_to_show_edit reqAuthB postB = true ∧
    orgB ∈ PostView.valid_org_to_show_edit reqAuthB postB :=
  ⟨(postView_edit_spec reqAuthB postB).1.mpr (Or.inl (by decide)),
   ((postView_edit_spec reqAuthB postB).2.1
       ((postView_edit_spec reqAuthB postB).1.mpr (Or.inl (by decide))) orgB).mpr
     (by decide)⟩

/-- Claim C10: every ticket returned by either ticket feed is open. -/
theorem ticketFeed_open_only (vis : Ticket → Bool) (req : Request)
    (tickets : List Ticket) (is_own : Bool) (t : Ticket)
    (h : t ∈ TicketFeed.get_queryset vis req tickets is_own) : t.is_open = true := by
  unfold TicketFeed.get_queryset filter_visible_tickets at h
  split at h
  · split at h
    · simp only [List.mem_insertionSort, List.mem_filter, Bool.and_eq_true] at h
      exact h.2.2
    · cases h
  · split at h
    · rw [List.mem_filter, List.mem_filter] at h
      exact h.1.2
    · cases h

/-- Witness for claim C10 at concrete inputs: one ticket in the "own" feed,
one in the "all" feed. -/
theorem ticketFeed_open_only_witness :
    ticketOpen.is_open = true ∧ ticketOther.is_open = true :=
  ⟨ticketFeed_open_only (fun _ => true) reqAuth [ticketOpen] true ticketOpen (by decide),
   ticketFeed_open_only (fun _ => true) reqStaff [ticketOther] false ticketOther (by decide)⟩

/-- Membership in the base visible-contest queryset. -/
theorem visible_base_mem (gvc : Contest → Bool) (contests : List Contest) (c : Contest) :
    c ∈ FeedView.visible_base gvc contests ↔
      c ∈ contests ∧ gvc c = true ∧ c.is_visible = true := by
  unfold FeedView.visible_base
  rw [List.mem_insertionSort, List.mem_filter, List.mem_filter]
  tauto

/-- Membership in the scoped visible-contest queryset. -/
theorem visible_contests_mem (gvc : Contest → Bool) (req : Request)
    (contests : List Contest) (c : Contest) :
    c ∈ FeedView.visible_contests gvc req contests ↔
      c ∈ contests ∧ gvc c = true ∧ c.is_visible = true ∧
        (∀ org, req.organization = some org →
          c.is_organization_private = true ∧ org ∈ c.organizations) := by
  unfold FeedView.visible_contests
  cases horg : req.organization with
  | none =>
    rw [visible_base_mem]
    simp
  | some org =>
    rw [List.mem_filter, visible_base_mem]
    simp [List.contains, and_assoc]

/-- The scoped visible-contest queryset is sorted by ascending start time. -/
theorem visible_contests_sorted (gvc : Contest → Bool) (req : Request)
    (contests : List Contest) :
    List.Pairwise (fun a b : Contest => a.start_time ≤ b.start_time)
      (FeedView.visible_contests gvc req contests) := by
  have hbase : List.Pairwise (fun a b : Contest => a.start_time ≤ b.start_time)
      (FeedView.visible_base gvc contests) :=
    (List.sorted_insertionSort contestOrd _).imp
      (fun h => by simpa [contestOrd, contestLe] using h)
  unfold FeedView.visible_contests
  cases req.organization with
  | none => exact hbase
  | some org => exact hbase.filter _

/-- Claim C8: "current_contests" holds exactly the visible contests with
`start_time <= now < end_time`, "future_contests" exactly those with
`start_time > now`, both ordered by ascending start time and both scoped to
the active organization context when one is present. -/
theorem feed_contests_spec (gvc : Contest → Bool) (req : Request)
    (contests : List Contest) (now : Int) :
    (∀ c, c ∈ FeedView.current_contests gvc req contests now ↔
        c ∈ contests ∧ gvc c = true ∧ c.is_visible = true ∧
          (∀ org, req.organization = some org →
            c.is_organization_private = true ∧ org ∈ c.organizations) ∧
          c.start_time ≤ now ∧ now < c.end_time) ∧
    (∀ c, c ∈ FeedView.future_contests gvc req contests now ↔
        c ∈ contests ∧ gvc c = true ∧ c.is_visible = true ∧
          (∀ org, req.organization = some org →
            c.is_organization_private = true ∧ org ∈ c.organizations) ∧
          now < c.start_time) ∧
    List.Pairwise (fun a b : Contest => a.start_time ≤ b.start_time)
      (FeedView.current_contests gvc req contests now) ∧
    List.Pairwise (fun a b : Contest => a.start_time ≤ b.start_time)
      (FeedView.future_contests gvc req contests now) := by
  refine ⟨?_, ?_, ?_, ?_⟩
  · intro c
    unfold FeedView.current_contests
    rw [List.mem_filter, visible_contests_mem]
    simp only [Bool.and_eq_true, decide_eq_true_eq]
    tauto
  · intro c
    unfold FeedView.future_contests
    rw [List.mem_filter, visible_contests_mem]
    simp only [decide_eq_true_eq]
    tauto
  · exact (visible_contests_sorted gvc req contests).filter _
  · exact (visible_contests_sorted gvc req contests).filter _

/-- Witness for claim C8 at a concrete input. -/
theorem feed_contests_spec_witness :
    contestA ∈ FeedView.current_contests (fun _ => true) reqAnon [contestA] 0 :=
  ((feed_contests_spec (fun _ => true) reqAnon [contestA] 0).1 contestA).mpr (by decide)

/-- Generic idempotence of a filter-sort-filter pipeline. -/
theorem pipeline_idem {α : Type} (r : α → α → Prop) [DecidableRel r] [IsTotal α r]
    [IsTrans α r] (A B : α → Bool) (l : List α) :
    (((((l.filter A).insertionSort r).filter B).filter A).insertionSort r).filter B =
      ((l.filter A).insertionSort r).filter B := by
  have hX : ∀ p ∈ ((l.filter A).insertionSort r).filter B, A p = true ∧ B p = true := by
    intro p hp
    rw [List.mem_filter] at hp
    refine ⟨?_, hp.2⟩
    have h1 := hp.1
    rw [List.mem_insertionSort, List.mem_filter] at h1
    exact h1.2
  have hA : (((l.filter A).insertionSort r).filter B).filter A =
      ((l.filter A).insertionSort r).filter B :=
    List.filter_eq_self.mpr (fun p hp => (hX p hp).1)
  rw [hA]
  have hs : List.Sorted r (((l.filter A).insertionSort r).filter B) :=
    (List.sorted_insertionSort r _).filter _
  rw [hs.insertionSort_eq]
  exact List.filter_eq_self.mpr (fun p hp => (hX p hp).2)

/-- Generic idempotence of a filter-then-sort pipeline. -/
theorem sort_filter_idem {α : Type} (r : α → α → Prop) [DecidableRel r] [IsTotal α r]
    [IsTrans α r] (P : α → Bool) (l : List α) :
    (((l.filter P).insertionSort r).filter P).insertionSort r =
      (l.filter P).insertionSort r := by
  have h : ((l.filter P).insertionSort r).filter P = (l.filter P).insertionSort r :=
    List.filter_eq_self.mpr
      (fun a ha => (List.mem_filter.mp ((List.mem_insertionSort r).mp ha)).2)
  rw [h]
  exact (List.sorted_insertionSort r _).insertionSort_eq

/-- Idempotence of the "own" ticket feed. -/
theorem ticket_own_idem (vis : Ticket → Bool) (req : Request) (tickets : List Ticket) :
    TicketFeed.get_queryset vis req (TicketFeed.get_queryset vis req tickets true) true =
      TicketFeed.get_queryset vis req tickets true := by
  by_cases h : req.user_is_authenticated = true
  · simp only [TicketFeed.get_queryset, if_true, h]
    exact sort_filter_idem ticketOrd _ tickets
  · simp only [TicketFeed.get_queryset, if_true, h]
    simp

/-- Idempotence of the "all" ticket feed. -/
theorem ticket_all_idem (vis : Ticket → Bool) (req : Request) (tickets : List Ticket) :
    TicketFeed.get_queryset vis req (TicketFeed.get_queryset vis req tickets false) false =
      TicketFeed.get_queryset vis req tickets false := by
  by_cases h : req.user_is_staff = true
  · simp only [TicketFeed.get_queryset, filter_visible_tickets, Bool.false_eq_true, if_false,
      h, if_true]
    have hX : ∀ t ∈ (((tickets.insertionSort ticketOrd).filter (fun t => t.is_open)).filter vis),
        t.is_open = true ∧ vis t = true := by
      intro t ht
      rw [List.mem_filter, List.mem_filter] at ht
      exact ⟨ht.1.2, ht.2⟩
    have hs : List.Sorted ticketOrd
        (((tickets.insertionSort ticketOrd).filter (fun t => t.is_open)).filter vis) :=
      ((List.sorted_insertionSort ticketOrd tickets).filter _).filter _
    rw [hs.insertionSort_eq]
    rw [List.filter_eq_self.mpr (fun t ht => (hX t ht).1)]
    rw [List.filter_eq_self.mpr (fun t ht => (hX t ht).2)]
  · simp only [TicketFeed.get_queryset, Bool.false_eq_true, if_false, h]

/-- Every post of any page slice of the `PostList` queryset satisfies the
visibility and org-privacy predicates. -/
theorem postList_page_safe (req : Request) (now : Int) (posts : List BlogPost)
    (a b : Nat) (p : BlogPost)
    (h : p ∈ ((PostList.get_queryset req now posts).drop a).take b) :
    p.visible = true ∧ p.publish_on ≤ now ∧ postListOrgFilter req p = true := by
  have hm : p ∈ PostList.get_queryset req now posts :=
    List.mem_of_mem_drop (List.mem_of_mem_take h)
  rw [postList_mem] at hm
  exact ⟨hm.2.1, hm.2.2.1, hm.2.2.2⟩

/-- Every ticket of any page slice of the "own" feed is owned by or assigned
to the (authenticated) viewer, and open. -/
theorem ticket_own_page_safe (vis : Ticket → Bool) (req : Request) (tickets : List Ticket)
    (a b : Nat) (t : Ticket)
    (h : t ∈ ((TicketFeed.get_queryset vis req tickets true).drop a).take b) :
    req.user_is_authenticated = true ∧
      (t.user = req.profile.id ∨ req.profile.id ∈ t.assignees) ∧ t.is_open = true := by
  have hm : t ∈ TicketFeed.get_queryset vis req tickets true :=
    List.mem_of_mem_drop (List.mem_of_mem_take h)
  by_cases hauth : req.user_is_authenticated = true
  · refine ⟨hauth, ?_⟩
    exact ((ticket_own_mem vis req tickets hauth t).mp hm).2
  · rw [ticket_own_unauth vis req tickets (by simpa using hauth)] at hm
    cases hm

/-- Every ticket of any page slice of the "all" feed is open, passes the
external visibility filter, and only exists for a staff viewer. -/
theorem ticket_all_page_safe (vis : Ticket → Bool) (req : Request) (tickets : List Ticket)
    (a b : Nat) (t : Ticket)
    (h : t ∈ ((TicketFeed.get_queryset vis req tickets false).drop a).take b) :
    req.user_is_staff = true ∧ t.is_open = true ∧ vis t = true := by
  have hm : t ∈ TicketFeed.get_queryset vis req tickets false :=
    List.mem_of_mem_drop (List.mem_of_mem_take h)
  by_cases hstaff : req.user_is_staff = true
  · rw [ticket_all_staff vis req tickets hstaff] at hm
    unfold filter_visible_tickets at hm
    rw [List.mem_filter, List.mem_filter] at hm
    exact ⟨hstaff, hm.1.2, hm.2⟩
  · rw [ticket_all_nonstaff vis req tickets (by simpa using hstaff)] at hm
    cases hm

/-- Claim C9: the post and ticket visibility filters are idempotent, and no
page slice of a feed ever contains an item the viewer lacks rights to. -/
theorem visibility_filters_idem_safe :
    (∀ (req : Request) (now : Int) (posts : List BlogPost),
      PostList.get_queryset req now (PostList.get_queryset req now posts) =
        PostList.get_queryset req now posts) ∧
    (∀ (vis : Ticket → Bool) (req : Request) (tickets : List Ticket) (is_own : Bool),
      TicketFeed.get_queryset vis req (TicketFeed.get_queryset vis req tickets is_own) is_own =
        TicketFeed.get_queryset vis req tickets is_own) ∧
    (∀ (req : Request) (now : Int) (posts : List BlogPost) (a b : Nat) (p : BlogPost),
      p ∈ ((PostList.get_queryset req now posts).drop a).take b →
        p.visible = true ∧ p.publish_on ≤ now ∧ postListOrgFilter req p = true) ∧
    (∀ (vis : Ticket → Bool) (req : Request) (tickets : List Ticket) (a b : Nat) (t : Ticket),
      t ∈ ((TicketFeed.get_queryset vis req tickets true).drop a).take b →
        req.user_is_authenticated = true ∧
          (t.user = req.profile.id ∨ req.profile.id ∈ t.assignees) ∧ t.is_open = true) ∧
    (∀ (vis : Ticket → Bool) (req : Request) (tickets : List Ticket) (a b : Nat) (t : Ticket),
      t ∈ ((TicketFeed.get_queryset vis req tickets false).drop a).take b →
        req.user_is_staff = true ∧ t.is_open = true ∧ vis t = true) := by
  refine ⟨?_, ?_, postList_page_safe, ticket_own_page_safe, ticket_all_page_safe⟩
  · intro req now posts
    unfold PostList.get_queryset
    exact pipeline_idem postOrd _ _ posts
  · intro vis req tickets is_own
    cases is_own with
    | true => exact ticket_own_idem vis req tickets
    | false => exact ticket_all_idem vis req tickets

/-- A decimal digit character's code point. -/
theorem digitChar_toNat (d : Nat) (h : d < 10) : (digitChar d).toNat = 48 + d := by
  interval_cases d <;> rfl

/-- Decimal parsing distributes over append. -/
theorem decimalAux_append (l1 l2 : List Char) :
    ∀ acc, decimalAux acc (l1 ++ l2) = decimalAux (decimalAux acc l1) l2 := by
  induction l1 with
  | nil => intro acc; rfl
  | cons c cs ih =>
    intro acc
    show decimalAux (acc * 10 + (c.toNat - 48)) (cs ++ l2) =
      decimalAux (decimalAux (acc * 10 + (c.toNat - 48)) cs) l2
    exact ih _

/-- Parsing the digits of `n` after an accumulator shifts the accumulator by
the number of digits and adds `n`. -/
theorem decimalAux_natToDigits (n : Nat) :
    ∀ acc, decimalAux acc (natToDigits n) = acc * 10 ^ (natToDigits n).length + n := by
  induction n using Nat.strong_induction_on with
  | _ n ih =>
    intro acc
    by_cases h : n < 10
    · rw [natToDigits, dif_pos h]
      show decimalAux (acc * 10 + ((digitChar n).toNat - 48)) [] =
        acc * 10 ^ ([digitChar n]).length + n
      rw [digitChar_toNat n h]
      show acc * 10 + (48 + n - 48) = acc * 10 ^ (1 : Nat) + n
      rw [pow_one]
      omega
    · rw [natToDigits, dif_neg h]
      rw [decimalAux_append]
      have hdiv : n / 10 < n := Nat.div_lt_self (by omega) (by omega)
      rw [ih (n / 10) hdiv acc]
      have hlt : n % 10 < 10 := Nat.mod_lt _ (by omega)
      show decimalAux ((acc * 10 ^ (natToDigits (n / 10)).length + n / 10) * 10 +
          ((digitChar (n % 10)).toNat - 48)) [] =
        acc * 10 ^ ((natToDigits (n / 10) ++ [digitChar (n % 10)]).length) + n
      rw [digitChar_toNat (n % 10) hlt]
      show (acc * 10 ^ (natToDigits (n / 10)).length + n / 10) * 10 + (48 + n % 10 - 48) =
        acc * 10 ^ ((natToDigits (n / 10) ++ [digitChar (n % 10)]).length) + n
      rw [List.length_append, List.length_cons, List.length_nil, pow_succ]
      have hm : 10 * (n / 10) + n % 10 = n := Nat.div_add_mod n 10
      have h48 : 48 + n % 10 - 48 = n % 10 := by omega
      rw [h48]
      calc (acc * 10 ^ (natToDigits (n / 10)).length + n / 10) * 10 + n % 10
          = acc * (10 ^ (natToDigits (n / 10)).length * 10) + (10 * (n / 10) + n % 10) := by
            ring
        _ = acc * (10 ^ (natToDigits (n / 10)).length * 10) + n := by rw [hm]

/-- Round trip: `int(("b:%d" % n)[2:]) = n`. -/
theorem pyInt_pyFormatB (n : Nat) : pyInt (pyStrDrop (pyFormatB n) 2) = n := by
  show decimalAux 0 (natToDigits n) = n
  rw [decimalAux_natToDigits n 0]
  simp

/-- `find?` returns the unique element satisfying the predicate when there
is exactly one. -/
theorem find?_unique {α : Type} (p : α → Bool) (a : α) (hp : p a = true) :
    ∀ l : List α, a ∈ l → (∀ b ∈ l, p b = true → b = a) → l.find? p = some a := by
  intro l
  induction l with
  | nil => intro h _; cases h
  | cons x xs ih =>
    intro ha huniq
    by_cases hx : p x = true
    · have hxa : x = a := huniq x (by simp) hx
      rw [List.find?_cons_of_pos _ hx, hxa]
    · rw [List.find?_cons_of_neg _ (by simpa using hx)]
      rcases List.mem_cons.mp ha with rfl | h1
      · exact absurd hp hx
      · exact ih h1 (fun b hb hpb => huniq b (List.mem_cons_of_mem x hb) hpb)

/-- A member of a string list is contained in it in the Boolean sense. -/
theorem contains_true_of_mem {l : List String} {s : String} (h : s ∈ l) :
    l.contains s = true := by
  simp [List.contains, h]

/-- The pages of relevant comments lie in `pages`. -/
theorem relevant_page_mem {pages : List String} {comments : List Comment} {c : Comment}
    (h : c ∈ relevant pages comments) : c.page ∈ pages := by
  unfold relevant at h
  rw [List.mem_filter] at h
  have h2 := h.2
  rw [Bool.and_eq_true] at h2
  simpa [List.contains] using h2.1

/-- Looking up `k` in the re-keyed grouped counts yields the number of
non-hidden comments on page `b:k`, provided `b:k` is one of the listed pages
and is the only listed page decoding to `k`. -/
theorem counts_lookup (pages : List String) (comments : List Comment) (k : Nat)
    (hk : pyFormatB k ∈ pages)
    (hall : ∀ q ∈ pages, pyInt (pyStrDrop q 2) = k → q = pyFormatB k) :
    (dictLookup ((group_counts pages comments).map (fun e => (pyInt (pyStrDrop e.1 2), e.2)))
        k).getD 0 =
      comments.countP (fun c => !c.hidden && c.page == pyFormatB k) := by
  unfold dictLookup group_counts
  rw [List.map_map, List.find?_map]
  have hbase : ∀ q ∈ ((relevant pages comments).map (fun c => c.page)).dedup, q ∈ pages := by
    intro q hq
    rw [List.mem_dedup] at hq
    rcases List.mem_map.mp hq with ⟨c, hc, rfl⟩
    exact relevant_page_mem hc
  by_cases hmem :
      pyFormatB k ∈ ((relevant pages comments).map (fun c => c.page)).dedup
  · rw [find?_unique _ (pyFormatB k) (by simp [Function.comp, pyInt_pyFormatB]) _ hmem
      (fun b hb hpb => hall b (hbase b hb)
        (by simpa [Function.comp] using hpb))]
    show (relevant pages comments).countP (fun c => c.page == pyFormatB k) =
      comments.countP (fun c => !c.hidden && c.page == pyFormatB k)
    unfold relevant
    rw [List.countP_filter]
    apply List.countP_congr
    intro c _
    simp only [Bool.and_eq_true, Bool.not_eq_true', beq_iff_eq]
    constructor
    · rintro ⟨h1, _, h3⟩
      exact ⟨h3, h1⟩
    · rintro ⟨h3, h1⟩
      refine ⟨h1, ?_, h3⟩
      rw [h1]
      exact contains_true_of_mem hk
  · rw [List.find?_eq_none.mpr ?_]
    · show (0 : Nat) = comments.countP (fun c => !c.hidden && c.page == pyFormatB k)
      symm
      rw [List.countP_eq_zero]
      intro c hc hcontra
      rw [Bool.and_eq_true, Bool.not_eq_true', beq_iff_eq] at hcontra
      apply hmem
      rw [List.mem_dedup]
      refine List.mem_map.mpr ⟨c, ?_, hcontra.2⟩
      unfold relevant
      rw [List.mem_filter]
      refine ⟨hc, ?_⟩
      rw [Bool.and_eq_true, Bool.not_eq_true']
      refine ⟨?_, hcontra.1⟩
      rw [hcontra.2]
      exact contains_true_of_mem hk
    · intro q hq hpq
      apply hmem
      have hq' := hall q (hbase q hq) (by simpa [Function.comp] using hpq)
      rwa [hq'] at hq

/-- Claim C6: for every listed post, the attached comment count (absent key
meaning zero) equals the number of non-hidden comments whose page key is
`b:<post id>`; all counts come from the single grouped aggregate
`group_counts`. -/
theorem postList_comment_counts_spec (posts : List BlogPost) (comments : List Comment)
    (P : BlogPost) (hP : P ∈ posts) :
    (dictLookup (PostList.post_comment_counts posts comments) P.id).getD 0 =
      (comments.filter (fun c => !c.hidden && c.page == pyFormatB P.id)).length := by
  rw [← List.countP_eq_length_filter]
  unfold PostList.post_comment_counts
  apply counts_lookup
  · exact List.mem_map.mpr ⟨P, hP, rfl⟩
  · intro q hq hdec
    rcases List.mem_map.mp hq with ⟨Q, _, rfl⟩
    rw [pyInt_pyFormatB] at hdec
    rw [hdec]

/-- Witness for claim C6 at a concrete input. -/
theorem postList_comment_counts_spec_witness :
    (dictLookup (PostList.post_comment_counts [postA] [commentA]) postA.id).getD 0 =
      ([commentA].filter (fun c => !c.hidden && c.page == pyFormatB postA.id)).length :=
  postList_comment_counts_spec [postA] [commentA] postA (by simp)

/-- Witness for claim C9 at concrete inputs. -/
theorem visibility_filters_idem_safe_witness :
    (PostList.get_queryset reqAnon 0 (PostList.get_queryset reqAnon 0 [postA]) =
      PostList.get_queryset reqAnon 0 [postA]) ∧
    (postA.visible = true ∧ postA.publish_on ≤ (0 : Int) ∧
      postListOrgFilter reqAnon postA = true) ∧
    (ticketOpen.user = reqAuth.profile.id ∨ reqAuth.profile.id ∈ ticketOpen.assignees) ∧
    ticketOther.is_open = true :=
  ⟨visibility_filters_idem_safe.1 reqAnon 0 [postA],
   visibility_filters_idem_safe.2.2.1 reqAnon 0 [postA] 0 1 postA (by decide),
   (visibility_filters_idem_safe.2.2.2.1 (fun _ => true) reqAuth [ticketOpen] 0 1 ticketOpen
      (by decide)).2.1,
   (visibility_filters_idem_safe.2.2.2.2 (fun _ => true) reqStaff [ticketOther] 0 1 ticketOther
      (by decide)).2.1⟩

end Blog
